import Mathlib

/-!
Shallow embedding of the two core engines of the `cpp_guidelines_skill`
repository (`scripts/detect_violations.py` and `scripts/modernize_code.py`).

A source line is a `List Char` (Python lines from `readlines()`, usually ending
in `'\n'`).  The regular expressions of the source are translated into
deterministic scanners: every regex used by the scripts is backtracking-free on
its inputs (each greedy/lazy repetition is followed by a character that its
character class cannot consume), except the lazy group of the typedef pattern,
which is modelled by the explicit backtracking search `tdTryS1`/`tdFindSplit`
below with the same priority order as Python's engine (outer `\s+` longest
first, lazy `(.+?)` shortest first).  Python's `\s` is modelled as ASCII
whitespace and `\w` as `[A-Za-z0-9_]`; the repository's sources are ASCII.
-/

abbrev Line := List Char

def str (s : String) : Line := s.data

/-- Python `\s` (ASCII range, as used by the scripts). -/
def pyIsSpace (c : Char) : Bool :=
  c == ' ' || c == '\t' || c == '\n' || c == '\r' || c == '\x0b' || c == '\x0c'

/-- Python `\w` (ASCII range, as used by the scripts). -/
def isWordChar (c : Char) : Bool :=
  (97 ≤ c.toNat && c.toNat ≤ 122) || (65 ≤ c.toNat && c.toNat ≤ 90) ||
  (48 ≤ c.toNat && c.toNat ≤ 57) || c == '_'

def isDigitChar (c : Char) : Bool := 48 ≤ c.toNat && c.toNat ≤ 57

def isUpperAlpha (c : Char) : Bool := 65 ≤ c.toNat && c.toNat ≤ 90

/-- `[a-zA-Z_]`. -/
def isAlphaUnd (c : Char) : Bool :=
  (97 ≤ c.toNat && c.toNat ≤ 122) || (65 ≤ c.toNat && c.toNat ≤ 90) || c == '_'

/-- Python `pat in s` (substring containment). -/
def hasSub (pat : Line) : Line → Bool
  | [] => pat.isEmpty
  | c :: t => pat.isPrefixOf (c :: t) || hasSub pat t

/-- The part of `s` strictly before the first occurrence of `pat`
(everything, when `pat` does not occur): Python `s.split(pat)[0]`. -/
def splitFirst (pat : Line) : Line → Line
  | [] => []
  | c :: t => if pat.isPrefixOf (c :: t) then [] else c :: splitFirst pat t

/-- Python `line.split('//')[0] if '//' in line else line`
(the *code segment* of a line). -/
def codePart (line : Line) : Line :=
  if hasSub (str "//") line then splitFirst (str "//") line else line

/-- Python `s.find(pat)`: index of the first occurrence, `-1` when absent. -/
def pyFindAux (pat : Line) : Nat → Line → Int
  | i, [] => if pat.isEmpty then (i : Int) else -1
  | i, c :: t => if pat.isPrefixOf (c :: t) then (i : Int) else pyFindAux pat (i + 1) t

def pyFind (pat s : Line) : Int := pyFindAux pat 0 s

/-- Python `s.strip()`. -/
def pyStrip (s : Line) : Line :=
  ((s.dropWhile pyIsSpace).reverse.dropWhile pyIsSpace).reverse

/-- Literal chunk of a regex: consume `pat`, return the rest. -/
def lit (pat : Line) (s : Line) : Option Line :=
  if pat.isPrefixOf s then some (s.drop pat.length) else none

/-- `\w+` (greedy): the maximal nonempty word-character run and the rest. -/
def word1 (s : Line) : Option (Line × Line) :=
  let w := s.takeWhile isWordChar
  if w.isEmpty then none else some (w, s.dropWhile isWordChar)

/-- `\s+` (greedy): at least one whitespace character, maximal run. -/
def spaces1 : Line → Option Line
  | [] => none
  | c :: t => if pyIsSpace c then some (t.dropWhile pyIsSpace) else none

/-- `\d+` (greedy). -/
def digits1 (s : Line) : Option Line :=
  let w := s.takeWhile isDigitChar
  if w.isEmpty then none else some (s.dropWhile isDigitChar)

/-- `re.search` without word-boundary context: try the matcher at every
suffix, left to right. -/
def searchSuf (p : Line → Bool) : Line → Bool
  | [] => p []
  | c :: t => p (c :: t) || searchSuf p t

/-- `re.search` for patterns whose matcher needs the word-boundary context:
`pw` says whether the character just before the current position is a word
character. -/
def searchW (p : Bool → Line → Bool) : Bool → Line → Bool
  | pw, [] => p pw []
  | pw, c :: t => p pw (c :: t) || searchW p (isWordChar c) t

/-! ### Detection Engine (`scripts/detect_violations.py`) -/

inductive Severity where
  | critical
  | important
  | suggestion
deriving DecidableEq

structure Violation where
  file : String
  line : Nat
  column : Int
  severity : Severity
  rule : String
  message : String
  code_snippet : Line
  suggestion : String
deriving DecidableEq

/-- `\bnew\s+\w+` at the current position (`pw`: previous char is a word char). -/
def atNew (pw : Bool) (s : Line) : Bool :=
  !pw &&
    (match lit (str "new") s with
     | some r =>
       (match spaces1 r with
        | some r2 => (word1 r2).isSome
        | none => false)
     | none => false)

/-- `\bdelete\s+` at the current position. -/
def atDelete (pw : Bool) (s : Line) : Bool :=
  !pw &&
    (match lit (str "delete") s with
     | some r => (spaces1 r).isSome
     | none => false)

/-- `\bNULL\b` at the current position. -/
def nullAt (s : Line) : Bool :=
  match lit (str "NULL") s with
  | some r =>
    (match r with
     | [] => true
     | d :: _ => !isWordChar d)
  | none => false

def atNULL (pw : Bool) (s : Line) : Bool := !pw && nullAt s

/-- `\s*0\s*;` — the tail shared by the pointer-zero patterns; returns the
rest after the `;`. -/
def zeroTail (t : Line) : Option Line :=
  match lit (str "0") (t.dropWhile pyIsSpace) with
  | none => none
  | some t2 =>
    match (t2.dropWhile pyIsSpace) with
    | ';' :: t4 => some t4
    | _ => none

/-- `\*\s*\w+\s*=\s*0\s*[;,)]` at the current position (detection variant). -/
def atPtrZeroDetect (s : Line) : Bool :=
  match s with
  | '*' :: t =>
    (match word1 (t.dropWhile pyIsSpace) with
     | some (_, t2) =>
       (match t2.dropWhile pyIsSpace with
        | '=' :: t4 =>
          (match lit (str "0") (t4.dropWhile pyIsSpace) with
           | none => false
           | some t5 =>
             (match t5.dropWhile pyIsSpace with
              | ';' :: _ => true
              | ',' :: _ => true
              | ')' :: _ => true
              | _ => false))
        | _ => false)
     | none => false)
  | _ => false

/-- `\([A-Z]\w*\s*\*?\s*\)\s*[a-zA-Z_]` at the current position. -/
def atCast (s : Line) : Bool :=
  match s with
  | '(' :: c :: t =>
    if isUpperAlpha c then
      let t2 := (t.dropWhile isWordChar).dropWhile pyIsSpace
      let t3 := match t2 with
                | '*' :: u => u
                | _ => t2
      match t3.dropWhile pyIsSpace with
      | ')' :: u =>
        (match u.dropWhile pyIsSpace with
         | d :: _ => isAlphaUnd d
         | [] => false)
      | _ => false
    else false
  | _ => false

/-- `\btypedef\b` at the current position. -/
def atTypedefKw (pw : Bool) (s : Line) : Bool :=
  !pw &&
    (match lit (str "typedef") s with
     | some r =>
       (match r with
        | [] => true
        | d :: _ => !isWordChar d)
     | none => false)

/-- Continuation of `^\s*(KW)\s+\w+\s*\([^)]*\)\s*\{` after the leading
whitespace, for one keyword alternative. -/
def kwCont (kw : Line) (r : Line) : Bool :=
  match lit kw r with
  | none => false
  | some r1 =>
    (match spaces1 r1 with
     | none => false
     | some r2 =>
       (match word1 r2 with
        | none => false
        | some (_, r3) =>
          (match r3.dropWhile pyIsSpace with
           | '(' :: r4 =>
             (match r4.dropWhile (fun c => !(c == ')')) with
              | ')' :: r6 =>
                (match r6.dropWhile pyIsSpace with
                 | '{' :: _ => true
                 | _ => false)
              | _ => false)
           | _ => false)))

/-- `^\s*(int|bool|void|string|double|float)\s+\w+\s*\([^)]*\)\s*\{`
(anchored, as `re.search` with `^` and no MULTILINE). -/
def missingConstPat (line : Line) : Bool :=
  [str "int", str "bool", str "void", str "string", str "double", str "float"].any
    (fun kw => kwCont kw (line.dropWhile pyIsSpace))

/-- `for\s*\(\s*\w+\s+\w+\s*=\s*0\s*;.*\.size\(\)` at the current position. -/
def atManualLoop (s : Line) : Bool :=
  match lit (str "for") s with
  | none => false
  | some r0 =>
    (match r0.dropWhile pyIsSpace with
     | '(' :: r2 =>
       (match word1 (r2.dropWhile pyIsSpace) with
        | none => false
        | some (_, r4) =>
          (match spaces1 r4 with
           | none => false
           | some r5 =>
             (match word1 r5 with
              | none => false
              | some (_, r6) =>
                (match r6.dropWhile pyIsSpace with
                 | '=' :: r7 =>
                   (match lit (str "0") (r7.dropWhile pyIsSpace) with
                    | none => false
                    | some r9 =>
                      (match r9.dropWhile pyIsSpace with
                       | ';' :: r10 =>
                         hasSub (str ".size()") (r10.takeWhile (fun c => !(c == '\n')))
                       | _ => false))
                 | _ => false))))
     | _ => false)

/-- `\w+\s*\*\s+\w+\s*\([^)]*\)` at the current position. -/
def atRawPtr (s : Line) : Bool :=
  match word1 s with
  | none => false
  | some (_, r1) =>
    (match r1.dropWhile pyIsSpace with
     | '*' :: r2 =>
       (match spaces1 r2 with
        | none => false
        | some r3 =>
          (match word1 r3 with
           | none => false
           | some (_, r4) =>
             (match r4.dropWhile pyIsSpace with
              | '(' :: r5 =>
                (match r5.dropWhile (fun c => !(c == ')')) with
                 | ')' :: _ => true
                 | _ => false)
              | _ => false)))
     | _ => false)

/-- `\b\w+\s+\w+\s*\[\s*\d+\s*\]` at the current position. -/
def atCArray (pw : Bool) (s : Line) : Bool :=
  !pw &&
    (match word1 s with
     | none => false
     | some (_, r1) =>
       (match spaces1 r1 with
        | none => false
        | some r2 =>
          (match word1 r2 with
           | none => false
           | some (_, r3) =>
             (match r3.dropWhile pyIsSpace with
              | '[' :: r4 =>
                (match digits1 (r4.dropWhile pyIsSpace) with
                 | none => false
                 | some r6 =>
                   (match r6.dropWhile pyIsSpace with
                    | ']' :: _ => true
                    | _ => false))
              | _ => false))))

def searchNew (s : Line) : Bool := searchW atNew false s
def searchDelete (s : Line) : Bool := searchW atDelete false s
def searchNULL (s : Line) : Bool := searchW atNULL false s
def searchPtrZeroDetect (s : Line) : Bool := searchSuf atPtrZeroDetect s
def searchCast (s : Line) : Bool := searchSuf atCast s
def searchTypedefKw (s : Line) : Bool := searchW atTypedefKw false s
def searchManualLoop (s : Line) : Bool := searchSuf atManualLoop s
def searchRawPtr (s : Line) : Bool := searchSuf atRawPtr s
def searchCArray (s : Line) : Bool := searchW atCArray false s

def rawNewMsg : String := "直接使用 'new'，应使用智能指针"

def rawDeleteMsg : String := "直接使用 'delete'，应使用智能指针或 RAII"

/-- `_detect_raw_new_delete`, one line (1-based index `i`). -/
def detectRawNewDeleteLine (fp : String) (i : Nat) (line : Line) : List Violation :=
  let code := codePart line
  (if searchNew code then
     (if !hasSub (str "make_unique") line && !hasSub (str "make_shared") line then
        [{ file := fp, line := i, column := pyFind (str "new") line,
           severity := .critical, rule := "R.11",
           message := rawNewMsg,
           code_snippet := pyStrip line,
           suggestion := "使用 std::make_unique<T>() 或 std::make_shared<T>()" }]
      else [])
   else []) ++
  (if searchDelete code then
     [{ file := fp, line := i, column := pyFind (str "delete") line,
        severity := .critical, rule := "R.11",
        message := rawDeleteMsg,
        code_snippet := pyStrip line,
        suggestion := "使用 RAII 或智能指针自动管理资源" }]
   else [])

def nullUsageMsg : String := "使用 NULL，应使用 nullptr"

def ptrZeroMsg : String := "指针赋值为 0，应使用 nullptr"

/-- `_detect_null_usage`, one line. -/
def detectNullUsageLine (fp : String) (i : Nat) (line : Line) : List Violation :=
  let code := codePart line
  (if searchNULL code then
     [{ file := fp, line := i, column := pyFind (str "NULL") line,
        severity := .important, rule := "ES.47",
        message := nullUsageMsg, code_snippet := pyStrip line,
        suggestion := "替换为 nullptr" }]
   else []) ++
  (if searchPtrZeroDetect code then
     [{ file := fp, line := i, column := 0,
        severity := .important, rule := "ES.47",
        message := ptrZeroMsg, code_snippet := pyStrip line,
        suggestion := "替换为 nullptr" }]
   else [])

/-- `_detect_c_style_cast`, one line. -/
def detectCStyleCastLine (fp : String) (i : Nat) (line : Line) : List Violation :=
  if searchCast (codePart line) then
    [{ file := fp, line := i, column := 0,
       severity := .critical, rule := "ES.49",
       message := "使用 C 风格类型转换", code_snippet := pyStrip line,
       suggestion := "使用 static_cast<T>(), dynamic_cast<T>() 等" }]
  else []

/-- `_detect_typedef`, one line. -/
def detectTypedefLine (fp : String) (i : Nat) (line : Line) : List Violation :=
  if searchTypedefKw (codePart line) then
    [{ file := fp, line := i, column := pyFind (str "typedef") line,
       severity := .suggestion, rule := "T.43",
       message := "使用 typedef，建议使用 using", code_snippet := pyStrip line,
       suggestion := "使用 using 别名: using NewName = OldType;" }]
  else []

/-- `_detect_missing_const`, one line; `next?` is `lines[i]` when `i < len(lines)`. -/
def detectMissingConstLine (fp : String) (i : Nat) (line : Line) (next? : Option Line) :
    List Violation :=
  if missingConstPat line then
    match next? with
    | some nxt =>
      if hasSub (str "return") nxt && !hasSub (str "const") line then
        [{ file := fp, line := i, column := 0,
           severity := .important, rule := "Con.2",
           message := "成员函数可能应该声明为 const", code_snippet := pyStrip line,
           suggestion := "如果函数不修改对象状态，添加 const 限定符" }]
      else []
    | none => []
  else []

/-- `_detect_manual_loops`, one line (evaluated on the raw line). -/
def detectManualLoopsLine (fp : String) (i : Nat) (line : Line) : List Violation :=
  if searchManualLoop line then
    [{ file := fp, line := i, column := 0,
       severity := .suggestion, rule := "ES.71",
       message := "使用索引循环，建议使用范围 for", code_snippet := pyStrip line,
       suggestion := "考虑使用 for (auto& item : container) 或标准算法" }]
  else []

/-- `_detect_raw_pointers`, one line (evaluated on the raw line). -/
def detectRawPointersLine (fp : String) (i : Nat) (line : Line) : List Violation :=
  if searchRawPtr line then
    if !hasSub (str "const") line then
      [{ file := fp, line := i, column := 0,
         severity := .important, rule := "I.11",
         message := "函数返回裸指针，所有权不明确", code_snippet := pyStrip line,
         suggestion := "考虑返回 unique_ptr、shared_ptr 或引用" }]
    else []
  else []

/-- `_detect_c_arrays`, one line (evaluated on the raw line). -/
def detectCArraysLine (fp : String) (i : Nat) (line : Line) : List Violation :=
  if searchCArray line then
    if !hasSub (str "char") line then
      [{ file := fp, line := i, column := 0,
         severity := .suggestion, rule := "SL.con.1",
         message := "使用 C 风格数组", code_snippet := pyStrip line,
         suggestion := "考虑使用 std::array<T, N> 或 std::vector<T>" }]
    else []
  else []

/-- Run a per-line detector over the whole file, 1-based line numbers. -/
def overLines (f : Nat → Line → List Violation) : Nat → List Line → List Violation
  | _, [] => []
  | i, l :: ls => f i l ++ overLines f (i + 1) ls

/-- Same, but the detector also sees `lines[i]` (the next line) when it exists. -/
def overLinesNext (f : Nat → Line → Option Line → List Violation) :
    Nat → List Line → List Violation
  | _, [] => []
  | i, l :: ls => f i l (ls.head?) ++ overLinesNext f (i + 1) ls

/-- `ViolationDetector.detect_file` on already-read lines: the eight
detectors run in the source's order, each over the whole file. -/
def detectFileLines (fp : String) (lines : List Line) : List Violation :=
  overLines (detectRawNewDeleteLine fp) 1 lines ++
  overLines (detectNullUsageLine fp) 1 lines ++
  overLines (detectCStyleCastLine fp) 1 lines ++
  overLines (detectTypedefLine fp) 1 lines ++
  overLinesNext (detectMissingConstLine fp) 1 lines ++
  overLines (detectManualLoopsLine fp) 1 lines ++
  overLines (detectRawPointersLine fp) 1 lines ++
  overLines (detectCArraysLine fp) 1 lines

/-- Result of `open(...)`/`readlines()`: contents, or a read failure. -/
inductive ReadResult where
  | ok (lines : List Line)
  | err (msg : String)

/-- `detect_file`: a read failure is reported to the diagnostic channel
(stderr) and yields an empty violation list; it never raises. -/
def detect_file (fp : String) (r : ReadResult) : List Violation × List String :=
  match r with
  | .err m => ([], ["错误：无法读取文件 " ++ fp ++ ": " ++ m])
  | .ok lines => (detectFileLines fp lines, [])

/-- `scan_directory`: each located file is scanned, results concatenated. -/
def scan_directory (files : List (String × ReadResult)) : List Violation :=
  (files.map (fun p => (detect_file p.1 p.2).1)).flatten

/-- The severity rank used by `main`'s sort key
(`0 if CRITICAL else 1 if IMPORTANT else 2`). -/
def sevRank : Severity → Nat
  | .critical => 0
  | .important => 1
  | .suggestion => 2

/-- The sort key order of `main`: `(severity rank, file, line)`,
lexicographically. -/
def violLe (a b : Violation) : Prop :=
  sevRank a.severity < sevRank b.severity ∨
    (sevRank a.severity = sevRank b.severity ∧
      (a.file < b.file ∨ (a.file = b.file ∧ a.line ≤ b.line)))

instance violLeDecidable : DecidableRel violLe := fun a b => by
  unfold violLe; infer_instance

/-- `violations.sort(key=lambda v: (rank, v.file, v.line))`. -/
def sortViolations (vs : List Violation) : List Violation :=
  List.insertionSort violLe vs

/-- The list `main` hands to the Reporter for a directory scan. -/
def reporterOutput (files : List (String × ReadResult)) : List Violation :=
  sortViolations (scan_directory files)

/-- The target `main` was invoked on. -/
inductive Target where
  | file (fp : String) (r : ReadResult)
  | dir (files : List (String × ReadResult))
  | invalid (arg : String)

/-- `main`'s dispatch on the path argument: an invalid path is fatal
(`sys.exit(1)`); otherwise the sorted violation batch is produced. -/
def mainRun : Target → Except Nat (List Violation)
  | .file fp r => .ok (sortViolations (detect_file fp r).1)
  | .dir files => .ok (reporterOutput files)
  | .invalid _ => .error 1

/-! ### Transformation Engine (`scripts/modernize_code.py`) -/

structure Replacement where
  line_num : Nat
  old_text : Line
  new_text : Line
  reason : String
deriving DecidableEq

/-- `re.sub(r'\bNULL\b', 'nullptr', line)`: scan left to right with the
word-boundary context `pw`; a replaced occurrence continues right after it.
The fuel argument bounds the recursion; `length s` always suffices. -/
def subNULLF : Nat → Bool → Line → Line
  | 0, _, s => s
  | _ + 1, _, [] => []
  | n + 1, pw, c :: t =>
    if !pw && nullAt (c :: t) then
      str "nullptr" ++ subNULLF n true (t.drop 3)
    else
      c :: subNULLF n (isWordChar c) t

def subNULL (pw : Bool) (s : Line) : Line := subNULLF s.length pw s

def nullReason : String := "NULL → nullptr (ES.47)"

/-- One line of `_replace_null_with_nullptr`: the rewritten line, and the
Replacement data when one is logged. -/
def stepNull (line : Line) : Line × Option (Line × Line × String) :=
  if !hasSub (str "//") line && !hasSub (str "/*") line then
    if searchNULL line then
      let nl := subNULL false line
      if nl = line then (line, none) else (nl, some (line, nl, nullReason))
    else (line, none)
  else (line, none)

/-- `\s+(\w+)\s*;` — the deterministic tail of the typedef pattern; returns
the captured name. -/
def tdTail (r : Line) : Option Line :=
  match spaces1 r with
  | none => none
  | some r1 =>
    (match word1 r1 with
     | none => none
     | some (name, r2) =>
       (match r2.dropWhile pyIsSpace with
        | ';' :: _ => some name
        | _ => none))

/-- The lazy `(.+?)` of the typedef pattern: try the shortest old-type first
(`acc` holds the reversed part consumed so far); `.` never matches `'\n'`. -/
def tdFindSplit (acc : Line) : Line → Option (Line × Line)
  | [] => none
  | c :: t =>
    if c == '\n' then none
    else
      match tdTail t with
      | some name => some ((acc ++ [c]), name)
      | none => tdFindSplit (acc ++ [c]) t

/-- Backtracking over the first `\s+` of the typedef pattern: Python tries
the longest whitespace run first; `n` counts down the run length. -/
def tdTryS1 : Nat → Line → Option (Line × Line)
  | 0, _ => none
  | n + 1, r0 =>
    match tdFindSplit [] (r0.drop (n + 1)) with
    | some p => some p
    | none => tdTryS1 n r0

/-- `re.match(r'(\s*)typedef\s+(.+?)\s+(\w+)\s*;', line)`:
`some (indent, old_type, new_name)` on a match. -/
def matchTypedef (line : Line) : Option (Line × Line × Line) :=
  let indent := line.takeWhile pyIsSpace
  match lit (str "typedef") (line.dropWhile pyIsSpace) with
  | none => none
  | some r0 =>
    (match tdTryS1 (r0.takeWhile pyIsSpace).length r0 with
     | some (old, name) => some (indent, old, name)
     | none => none)

def typedefReason : String := "typedef → using (T.43)"

/-- One line of `_replace_typedef_with_using`; a Replacement is appended on
every match (the rebuilt line drops anything after the matched `;`). -/
def stepTypedef (line : Line) : Line × Option (Line × Line × String) :=
  match matchTypedef line with
  | some (indent, old, name) =>
    let nl := indent ++ str "using " ++ name ++ str " = " ++ old ++ str ";" ++ str "\n"
    (nl, some (line, nl, typedefReason))
  | none => (line, none)

/-- `re.sub(r'=\s*0\s*;', '= nullptr;', line)` (fuel-bounded; `length s`
always suffices). -/
def subZeroF : Nat → Line → Line
  | 0, s => s
  | _ + 1, [] => []
  | n + 1, c :: t =>
    if c == '=' then
      match zeroTail t with
      | some rest => str "= nullptr;" ++ subZeroF n rest
      | none => c :: subZeroF n t
    else c :: subZeroF n t

def subZero (s : Line) : Line := subZeroF s.length s

/-- `\*\s*\w+\s*=\s*0\s*;` at the current position (rewrite trigger). -/
def atPtrZero (s : Line) : Bool :=
  match s with
  | '*' :: t =>
    (match word1 (t.dropWhile pyIsSpace) with
     | some (_, t2) =>
       (match t2.dropWhile pyIsSpace with
        | '=' :: t4 => (zeroTail t4).isSome
        | _ => false)
     | none => false)
  | _ => false

def searchPtrZero (s : Line) : Bool := searchSuf atPtrZero s

def zeroReason : String := "指针初始化 0 → nullptr (ES.47)"

/-- One line of `_replace_zero_nullptr`. -/
def stepZero (line : Line) : Line × Option (Line × Line × String) :=
  if searchPtrZero line then
    let nl := subZero line
    if nl = line then (line, none) else (nl, some (line, nl, zeroReason))
  else (line, none)

inductive Access where
  | pub
  | priv
  | prot
deriving DecidableEq

/-- The scope state threaded through `_add_explicit_to_constructors`. -/
structure ScopeState where
  in_class : Bool
  access_level : Access
deriving DecidableEq

/-- `re.match(r'\s*(class|struct)\s+\w+', line)`: `some false` when the
matched keyword is `class`, `some true` when it is `struct`. -/
def matchOpenerKw (line : Line) : Option Bool :=
  let r := line.dropWhile pyIsSpace
  match lit (str "class") r with
  | some r1 =>
    (match spaces1 r1 with
     | some r2 => if (word1 r2).isSome then some false else none
     | none => none)
  | none =>
    (match lit (str "struct") r with
     | some r1 =>
       (match spaces1 r1 with
        | some r2 => if (word1 r2).isSome then some true else none
        | none => none)
     | none => none)

def matchOpener (line : Line) : Bool := (matchOpenerKw line).isSome

/-- `re.match(r'\s*KW\s*:', line)` for an access label keyword. -/
def matchLabel (kw : Line) (line : Line) : Bool :=
  match lit kw (line.dropWhile pyIsSpace) with
  | some r1 =>
    (match r1.dropWhile pyIsSpace with
     | ':' :: _ => true
     | _ => false)
  | none => false

/-- `re.match(r'\s*}\s*;', line)`. -/
def matchClose (line : Line) : Bool :=
  match line.dropWhile pyIsSpace with
  | '}' :: r =>
    (match r.dropWhile pyIsSpace with
     | ';' :: _ => true
     | _ => false)
  | _ => false

/-- `re.match(r'(\s*)(\w+)\s*\(\s*\w+[^,)]*\)\s*[:{;]', line)`: the captured
indentation on a match. -/
def ctorMatch (line : Line) : Option Line :=
  let indent := line.takeWhile pyIsSpace
  match word1 (line.dropWhile pyIsSpace) with
  | none => none
  | some (_, r1) =>
    (match r1.dropWhile pyIsSpace with
     | '(' :: r3 =>
       (match word1 (r3.dropWhile pyIsSpace) with
        | none => none
        | some (_, r5) =>
          (match r5.dropWhile (fun c => !(c == ',' || c == ')')) with
           | ')' :: r7 =>
             (match r7.dropWhile pyIsSpace with
              | ':' :: _ => some indent
              | '{' :: _ => some indent
              | ';' :: _ => some indent
              | _ => none)
           | _ => none))
     | _ => none)

/-- Python `line.replace(old, new, 1)`: replace the leftmost occurrence. -/
def replaceFirst (pat rep : Line) : Line → Line
  | [] => if pat.isEmpty then rep else []
  | c :: t =>
    if pat.isPrefixOf (c :: t) then rep ++ (c :: t).drop pat.length
    else c :: replaceFirst pat rep t

/-- The class/access-label updates of `_add_explicit_to_constructors`,
executed before the constructor check of the same line. -/
def scopeUpdatePre (st : ScopeState) (line : Line) : ScopeState :=
  let st1 : ScopeState :=
    if matchOpener line then
      ⟨true, if hasSub (str "struct") line then .pub else .priv⟩
    else st
  if matchLabel (str "public") line then ⟨st1.in_class, .pub⟩
  else if matchLabel (str "private") line then ⟨st1.in_class, .priv⟩
  else if matchLabel (str "protected") line then ⟨st1.in_class, .prot⟩
  else st1

/-- The end-of-class update, executed after the constructor check. -/
def scopeUpdatePost (st : ScopeState) (line : Line) : ScopeState :=
  if st.in_class && matchClose line then ⟨false, st.access_level⟩ else st

def explicitReason : String := "添加 explicit 到单参数构造函数 (C.46)"

/-- One line of `_add_explicit_to_constructors`. -/
def stepExplicit (st : ScopeState) (line : Line) :
    ScopeState × Line × Option (Line × Line × String) :=
  let st1 := scopeUpdatePre st line
  let out : Line × Option (Line × Line × String) :=
    if st1.in_class && st1.access_level == .pub then
      match ctorMatch line with
      | some indent =>
        if !hasSub (str "explicit") line && !hasSub (str "delete") line then
          let nl := replaceFirst indent (indent ++ str "explicit ") line
          (nl, some (line, nl, explicitReason))
        else (line, none)
      | none => (line, none)
    else (line, none)
  (scopeUpdatePost st1 line, out)

/-- Run a (possibly stateful) per-line pass over the file, 1-based line
numbers; replacements are appended in line order. -/
def runPassAux {σ : Type} (step : σ → Line → σ × Line × Option (Line × Line × String)) :
    σ → Nat → List Line → List Line × List Replacement
  | _, _, [] => ([], [])
  | s, i, l :: ls =>
    let r := step s l
    let rest := runPassAux step r.1 (i + 1) ls
    (r.2.1 :: rest.1,
     (match r.2.2 with
      | some (o, n, why) => { line_num := i, old_text := o, new_text := n, reason := why } :: rest.2
      | none => rest.2))

def runPass {σ : Type} (step : σ → Line → σ × Line × Option (Line × Line × String))
    (s0 : σ) (lines : List Line) : List Line × List Replacement :=
  runPassAux step s0 1 lines

def passNull (lines : List Line) : List Line × List Replacement :=
  runPass (fun (_ : Unit) l => ((), stepNull l)) () lines

def passTypedef (lines : List Line) : List Line × List Replacement :=
  runPass (fun (_ : Unit) l => ((), stepTypedef l)) () lines

def passExplicit (lines : List Line) : List Line × List Replacement :=
  runPass stepExplicit ⟨false, .priv⟩ lines

def passZero (lines : List Line) : List Line × List Replacement :=
  runPass (fun (_ : Unit) l => ((), stepZero l)) () lines

/-- The line/log part of `CodeModernizer.modernize_file`: the four passes in
the order the source calls them, each consuming the previous pass's output
lines; `self.replacements` accumulates across the passes in that order. -/
def modernizeLines (lines : List Line) : List Line × List Replacement :=
  let p1 := passNull lines
  let p2 := passTypedef p1.1
  let p3 := passExplicit p2.1
  let p4 := passZero p3.1
  (p4.1, p1.2 ++ p2.2 ++ p3.2 ++ p4.2)

/-! ### Generic facts about pass runs -/

theorem runPassAux_fst_length {σ : Type}
    (step : σ → Line → σ × Line × Option (Line × Line × String))
    (s : σ) (i : Nat) (ls : List Line) :
    ((runPassAux step s i ls).1).length = ls.length := by
  induction ls generalizing s i with
  | nil => rfl
  | cons l t ih =>
    simp only [runPassAux]
    cases h : (step s l).2.2 <;> simp [ih]

theorem runPassAux_repl_ge {σ : Type}
    (step : σ → Line → σ × Line × Option (Line × Line × String))
    (s : σ) (i : Nat) (ls : List Line) :
    ∀ r ∈ (runPassAux step s i ls).2, i ≤ r.line_num := by
  induction ls generalizing s i with
  | nil => intro r h; simp [runPassAux] at h
  | cons l t ih =>
    intro r h
    simp only [runPassAux] at h
    cases hs : (step s l).2.2 with
    | none =>
      rw [hs] at h
      exact le_trans (Nat.le_succ i) (ih _ (i + 1) r h)
    | some x =>
      rw [hs] at h
      rcases List.mem_cons.mp h with h1 | h1
      · subst h1; exact le_refl i
      · exact le_trans (Nat.le_succ i) (ih _ (i + 1) r h1)

theorem runPassAux_repl_sorted {σ : Type}
    (step : σ → Line → σ × Line × Option (Line × Line × String))
    (s : σ) (i : Nat) (ls : List Line) :
    List.Pairwise (fun a b : Replacement => a.line_num < b.line_num)
      (runPassAux step s i ls).2 := by
  induction ls generalizing s i with
  | nil => simp [runPassAux]
  | cons l t ih =>
    simp only [runPassAux]
    cases hs : (step s l).2.2 with
    | none => exact ih _ (i + 1)
    | some x =>
      refine List.Pairwise.cons ?_ (ih _ (i + 1))
      intro r hr
      exact lt_of_lt_of_le (Nat.lt_succ_self i) (runPassAux_repl_ge step _ (i + 1) t r hr)

theorem runPassAux_repl_reason {σ : Type}
    (step : σ → Line → σ × Line × Option (Line × Line × String)) (tag : String)
    (hstep : ∀ (s : σ) (l : Line) (x : Line × Line × String),
      (step s l).2.2 = some x → x.2.2 = tag)
    (s : σ) (i : Nat) (ls : List Line) :
    ∀ r ∈ (runPassAux step s i ls).2, r.reason = tag := by
  induction ls generalizing s i with
  | nil => intro r h; simp [runPassAux] at h
  | cons l t ih =>
    intro r h
    simp only [runPassAux] at h
    cases hs : (step s l).2.2 with
    | none => rw [hs] at h; exact ih _ (i + 1) r h
    | some x =>
      rw [hs] at h
      rcases List.mem_cons.mp h with h1 | h1
      · subst h1; exact hstep s l x hs
      · exact ih _ (i + 1) r h1

theorem stepNull_reason (l : Line) (x : Line × Line × String)
    (h : (stepNull l).2 = some x) : x.2.2 = nullReason := by
  unfold stepNull at h
  dsimp only [] at h
  repeat' split at h
  all_goals simp_all
  subst h
  rfl

theorem stepTypedef_reason (l : Line) (x : Line × Line × String)
    (h : (stepTypedef l).2 = some x) : x.2.2 = typedefReason := by
  unfold stepTypedef at h
  dsimp only [] at h
  repeat' split at h
  all_goals simp_all
  subst h
  rfl

theorem stepZero_reason (l : Line) (x : Line × Line × String)
    (h : (stepZero l).2 = some x) : x.2.2 = zeroReason := by
  unfold stepZero at h
  dsimp only [] at h
  repeat' split at h
  all_goals simp_all
  subst h
  rfl

theorem stepExplicit_reason (st : ScopeState) (l : Line) (x : Line × Line × String)
    (h : (stepExplicit st l).2.2 = some x) : x.2.2 = explicitReason := by
  unfold stepExplicit at h
  dsimp only [] at h
  repeat' split at h
  all_goals simp_all
  subst h
  rfl

/-- The order in which `modernize_file` actually runs the passes, read off a
Replacement's reason tag. -/
def passReasonIdx (s : String) : Nat :=
  if s = nullReason then 1
  else if s = typedefReason then 2
  else if s = explicitReason then 3
  else if s = zeroReason then 4
  else 0

/-- The pass numbering the claim asserts (pointer-zero third, explicit
fourth), read off a Replacement's reason tag. -/
def claimPassIdx (s : String) : Nat :=
  if s = nullReason then 1
  else if s = typedefReason then 2
  else if s = zeroReason then 3
  else if s = explicitReason then 4
  else 0

def cexOrderFile : List Line :=
  [str "struct S \x7b\n", str "S(int x);\n", str "int *p = 0;\n", str "\x7d;\n"]

/-- C1 (counterexample): on `cexOrderFile` the Replacement log produced by
`modernize_file` is NOT ordered by the claim's pass numbering (pointer-zero
third, explicit-insertion fourth) paired with the line number: the
explicit-insertion entry (claim pass 4, line 2) precedes the pointer-zero
entry (claim pass 3, line 3). -/
theorem C1_claim_order_counterexample :
    ¬ List.Pairwise (fun a b : Replacement =>
        claimPassIdx a.reason < claimPassIdx b.reason ∨
          (claimPassIdx a.reason = claimPassIdx b.reason ∧ a.line_num ≤ b.line_num))
      (modernizeLines cexOrderFile).2 := by decide

/-- C1 (amended): `modernize_file` runs the passes in the order
NULL→nullptr, typedef→using, explicit-insertion, pointer-zero (the last two
swapped with respect to the claim), each pass consuming the previous pass's
output lines, and the Replacement log is ordered by (that actual pass order,
line number), strictly. -/
theorem C1_log_ordered_by_actual_pass_order (lines : List Line) :
    List.Pairwise (fun a b : Replacement =>
      passReasonIdx a.reason < passReasonIdx b.reason ∨
        (passReasonIdx a.reason = passReasonIdx b.reason ∧ a.line_num < b.line_num))
      (modernizeLines lines).2 := by
  have hr1 : ∀ r ∈ (passNull lines).2, r.reason = nullReason :=
    runPassAux_repl_reason _ nullReason (fun _ l x h => stepNull_reason l x h) () 1 lines
  have hr2 : ∀ r ∈ (passTypedef (passNull lines).1).2, r.reason = typedefReason :=
    runPassAux_repl_reason _ typedefReason (fun _ l x h => stepTypedef_reason l x h) () 1 _
  have hr3 : ∀ r ∈ (passExplicit (passTypedef (passNull lines).1).1).2,
      r.reason = explicitReason :=
    runPassAux_repl_reason _ explicitReason (fun s l x h => stepExplicit_reason s l x h)
      ⟨false, .priv⟩ 1 _
  have hr4 : ∀ r ∈ (passZero (passExplicit (passTypedef (passNull lines).1).1).1).2,
      r.reason = zeroReason :=
    runPassAux_repl_reason _ zeroReason (fun _ l x h => stepZero_reason l x h) () 1 _
  have hs1 := runPassAux_repl_sorted (fun (_ : Unit) l => ((), stepNull l)) () 1 lines
  have hs2 := runPassAux_repl_sorted (fun (_ : Unit) l => ((), stepTypedef l)) () 1
    (passNull lines).1
  have hs3 := runPassAux_repl_sorted stepExplicit ⟨false, .priv⟩ 1
    (passTypedef (passNull lines).1).1
  have hs4 := runPassAux_repl_sorted (fun (_ : Unit) l => ((), stepZero l)) () 1
    (passExplicit (passTypedef (passNull lines).1).1).1
  show List.Pairwise _
    ((passNull lines).2 ++ (passTypedef (passNull lines).1).2 ++
      (passExplicit (passTypedef (passNull lines).1).1).2 ++
      (passZero (passExplicit (passTypedef (passNull lines).1).1).1).2)
  rw [List.pairwise_append, List.pairwise_append, List.pairwise_append]
  refine ⟨⟨⟨?_, ?_, ?_⟩, ?_, ?_⟩, ?_, ?_⟩
  · exact hs1.imp_of_mem (fun ha hb hlt => Or.inr ⟨by rw [hr1 _ ha, hr1 _ hb], hlt⟩)
  · exact hs2.imp_of_mem (fun ha hb hlt => Or.inr ⟨by rw [hr2 _ ha, hr2 _ hb], hlt⟩)
  · intro a ha b hb
    exact Or.inl (by rw [hr1 a ha, hr2 b hb]; decide)
  · exact hs3.imp_of_mem (fun ha hb hlt => Or.inr ⟨by rw [hr3 _ ha, hr3 _ hb], hlt⟩)
  · intro a ha b hb
    rcases List.mem_append.mp ha with h | h
    · exact Or.inl (by rw [hr1 a h, hr3 b hb]; decide)
    · exact Or.inl (by rw [hr2 a h, hr3 b hb]; decide)
  · exact hs4.imp_of_mem (fun ha hb hlt => Or.inr ⟨by rw [hr4 _ ha, hr4 _ hb], hlt⟩)
  · intro a ha b hb
    rcases List.mem_append.mp ha with h | h
    · rcases List.mem_append.mp h with h2 | h2
      · exact Or.inl (by rw [hr1 a h2, hr4 b hb]; decide)
      · exact Or.inl (by rw [hr2 a h2, hr4 b hb]; decide)
    · exact Or.inl (by rw [hr3 a h, hr4 b hb]; decide)

/-- The pass state just before the (0-based) `j`-th line: the fold of the
step function's state component over the earlier lines. -/
def stateAt {σ : Type} (step : σ → Line → σ × Line × Option (Line × Line × String)) :
    σ → List Line → Nat → σ
  | s, _, 0 => s
  | s, [], _ + 1 => s
  | s, l :: t, j + 1 => stateAt step (step s l).1 t j

theorem runPassAux_getElem {σ : Type}
    (step : σ → Line → σ × Line × Option (Line × Line × String)) :
    ∀ (s : σ) (i j : Nat) (ls : List Line),
      ((runPassAux step s i ls).1)[j]? =
        (ls[j]?).map (fun l => (step (stateAt step s ls j) l).2.1) := by
  intro s i j ls
  induction ls generalizing s i j with
  | nil => simp [runPassAux]
  | cons l t ih =>
    cases j with
    | zero =>
      show ((step s l).2.1 :: (runPassAux step (step s l).1 (i + 1) t).1)[0]? =
        ((l :: t)[0]?).map (fun l2 => (step (stateAt step s (l :: t) 0) l2).2.1)
      simp [stateAt]
    | succ j' =>
      show ((step s l).2.1 :: (runPassAux step (step s l).1 (i + 1) t).1)[j' + 1]? =
        ((l :: t)[j' + 1]?).map (fun l2 => (step (stateAt step s (l :: t) (j' + 1)) l2).2.1)
      rw [List.getElem?_cons_succ, List.getElem?_cons_succ]
      exact ih (step s l).1 (i + 1) j'

/-- C5: every rewrite pass is line-preserving.  Each of the four passes (and
the whole pipeline) returns exactly as many lines as it was given, and the
output line at every position is precisely the pass's rewrite of the input
line at the same position — the stateless passes pointwise, the
explicit-insertion pass under the scope state threaded through the
preceding lines — so a pass only replaces a line's text and never splits,
merges, inserts, deletes or reorders lines. -/
theorem C5_line_preserving (lines : List Line) :
    (((passNull lines).1.length = lines.length ∧
       (passTypedef lines).1.length = lines.length ∧
       (passExplicit lines).1.length = lines.length ∧
       (passZero lines).1.length = lines.length) ∧
      (modernizeLines lines).1.length = lines.length) ∧
    (∀ j : Nat,
      (passNull lines).1[j]? = (lines[j]?).map (fun l => (stepNull l).1) ∧
      (passTypedef lines).1[j]? = (lines[j]?).map (fun l => (stepTypedef l).1) ∧
      (passZero lines).1[j]? = (lines[j]?).map (fun l => (stepZero l).1) ∧
      (passExplicit lines).1[j]? = (lines[j]?).map
        (fun l => (stepExplicit (stateAt stepExplicit ⟨false, Access.priv⟩ lines j) l).2.1)) := by
  have h1 := runPassAux_fst_length (fun (_ : Unit) l => ((), stepNull l)) () 1 lines
  have h2 := runPassAux_fst_length (fun (_ : Unit) l => ((), stepTypedef l)) () 1
    (passNull lines).1
  have h3 := runPassAux_fst_length stepExplicit ⟨false, Access.priv⟩ 1
    (passTypedef (passNull lines).1).1
  have h4 := runPassAux_fst_length (fun (_ : Unit) l => ((), stepZero l)) () 1
    (passExplicit (passTypedef (passNull lines).1).1).1
  refine ⟨⟨⟨h1, ?_, ?_, ?_⟩, ?_⟩, ?_⟩
  · exact runPassAux_fst_length (fun (_ : Unit) l => ((), stepTypedef l)) () 1 lines
  · exact runPassAux_fst_length stepExplicit ⟨false, Access.priv⟩ 1 lines
  · exact runPassAux_fst_length (fun (_ : Unit) l => ((), stepZero l)) () 1 lines
  · exact h4.trans (h3.trans (h2.trans h1))
  · intro j
    refine ⟨?_, ?_, ?_, ?_⟩
    · exact runPassAux_getElem (fun (_ : Unit) l => ((), stepNull l)) () 1 j lines
    · exact runPassAux_getElem (fun (_ : Unit) l => ((), stepTypedef l)) () 1 j lines
    · exact runPassAux_getElem (fun (_ : Unit) l => ((), stepZero l)) () 1 j lines
    · exact runPassAux_getElem stepExplicit ⟨false, Access.priv⟩ 1 j lines

/-- C9: a file that cannot be read yields a diagnostic message and an empty
violation list without raising, a batch skips it and keeps the other files'
results, and an invalid top-level path argument makes `main` exit with the
non-zero status 1. -/
theorem C9_error_handling (fp m arg : String) (xs ys : List (String × ReadResult)) :
    detect_file fp (.err m) = ([], ["错误：无法读取文件 " ++ fp ++ ": " ++ m]) ∧
    scan_directory (xs ++ (fp, ReadResult.err m) :: ys) =
      scan_directory xs ++ scan_directory ys ∧
    mainRun (.invalid arg) = .error 1 ∧ (1 : Nat) ≠ 0 := by
  refine ⟨rfl, ?_, rfl, one_ne_zero⟩
  simp [scan_directory, detect_file]

def idemCexFile : List Line := [str "typedef int NULL; // c\n"]

/-- C4 (code bug): the pipeline is not idempotent.  On the one-line file
`"typedef int NULL; // c\n"`, the first run's typedef pass rebuilds the line
as `"using NULL = int;\n"` — dropping the trailing comment — so the second
run's NULL pass matches again: the second run logs one Replacement and
changes the line, where the claim (and the spec's idempotence contract)
requires zero Replacements and unchanged lines. -/
theorem C4_second_run_not_empty :
    (modernizeLines idemCexFile).1 = [str "using NULL = int;\n"] ∧
    (modernizeLines (modernizeLines idemCexFile).1).2 =
      [{ line_num := 1, old_text := str "using NULL = int;\n",
         new_text := str "using nullptr = int;\n", reason := nullReason }] ∧
    (modernizeLines (modernizeLines idemCexFile).1).1 = [str "using nullptr = int;\n"] := by
  decide

def commentArrLine : Line := str "// int arr[3]\n"

/-- C2 (counterexample): the line `"// int arr[3]\n"` has an empty code
segment — its array pattern occurs only inside the `//` comment — yet the
Detection Engine produces a (SL.con.1) violation for it, because the C-array
rule is evaluated on the raw line. -/
theorem C2_comment_only_counterexample :
    codePart commentArrLine = [] ∧
    (detectFileLines "a.cpp" [commentArrLine]).map (fun v => v.rule) = ["SL.con.1"] := by
  decide

def nullCommentLine : Line := str "int* p = NULL; // x\n"

/-- C3 (counterexample): the code segment of `"int* p = NULL; // x\n"`
contains the whole word `NULL`, but Transformation pass 1 refuses any line
containing `//`, so the pipeline leaves the line unchanged and logs no
Replacement — contradicting the claim that pass 1 rewrites it and logs
exactly one Replacement. -/
theorem C3_comment_line_counterexample :
    searchNULL (codePart nullCommentLine) = true ∧
    modernizeLines [nullCommentLine] = ([nullCommentLine], []) := by
  decide

def classStructLine : Line := str "class Xstruct \x7b\n"

/-- C6 (counterexample): `"class Xstruct {\n"` matches the type opener with
the `class` keyword (`matchOpenerKw` returns `some false`), yet the tracker
sets access level `public`, because the source decides the default access by
`"struct" in line` — and the type *name* contains `struct`.  The claim says
a `class` opener always yields `private`. -/
theorem C6_class_opener_counterexample :
    matchOpenerKw classStructLine = some false ∧
    scopeUpdatePre ⟨false, Access.priv⟩ classStructLine = ⟨true, Access.pub⟩ := by
  decide

instance violLeTotal : IsTotal Violation violLe := ⟨by
  intro a b
  unfold violLe
  rcases Nat.lt_trichotomy (sevRank a.severity) (sevRank b.severity) with h | h | h
  · exact Or.inl (Or.inl h)
  · rcases lt_trichotomy a.file b.file with hf | hf | hf
    · exact Or.inl (Or.inr ⟨h, Or.inl hf⟩)
    · rcases Nat.le_total a.line b.line with hl | hl
      · exact Or.inl (Or.inr ⟨h, Or.inr ⟨hf, hl⟩⟩)
      · exact Or.inr (Or.inr ⟨h.symm, Or.inr ⟨hf.symm, hl⟩⟩)
    · exact Or.inr (Or.inr ⟨h.symm, Or.inl hf⟩)
  · exact Or.inr (Or.inl h)⟩

instance violLeTrans : IsTrans Violation violLe := ⟨by
  intro a b c hab hbc
  unfold violLe at hab hbc ⊢
  rcases hab with h1 | ⟨e1, h1⟩ <;> rcases hbc with h2 | ⟨e2, h2⟩
  · exact Or.inl (lt_trans h1 h2)
  · exact Or.inl (e2 ▸ h1)
  · exact Or.inl (e1 ▸ h2)
  · refine Or.inr ⟨e1.trans e2, ?_⟩
    rcases h1 with hf1 | ⟨ef1, hl1⟩ <;> rcases h2 with hf2 | ⟨ef2, hl2⟩
    · exact Or.inl (lt_trans hf1 hf2)
    · exact Or.inl (ef2 ▸ hf1)
    · exact Or.inl (ef1 ▸ hf2)
    · exact Or.inr ⟨ef1.trans ef2, le_trans hl1 hl2⟩⟩

/-- C8: the Reporter-facing batch is sorted by `main`'s key — severity rank
ascending (Critical 0, Important 1, Suggestion 2), then file identifier,
then line number ascending — and is a permutation of the engines' combined
output; likewise for any violation list handed to the sort. -/
theorem C8_reporter_order_sorted (files : List (String × ReadResult))
    (vs : List Violation) :
    (List.Sorted violLe (reporterOutput files) ∧
      (reporterOutput files).Perm (scan_directory files)) ∧
    (List.Sorted violLe (sortViolations vs) ∧ (sortViolations vs).Perm vs) :=
  ⟨⟨List.sorted_insertionSort violLe _, List.perm_insertionSort violLe _⟩,
   ⟨List.sorted_insertionSort violLe _, List.perm_insertionSort violLe _⟩⟩

/-- C2 (amended): the four comment-aware rule functions evaluate their
patterns on the code segment only — per pattern and independently of the
others, whenever a pattern does not match the code segment of a line, that
pattern produces no Violation for the line, no matter what the comment
contains.  (The new/delete and NULL/pointer-zero pairs share a rule id
within one function; their violations are told apart by their fixed message
strings.  The other four rule functions work on the raw line; the
counterexample shows a comment-only pattern firing one of them.) -/
theorem C2_code_segment_rules_amended (fp : String) (i : Nat) (line : Line) :
    (searchNew (codePart line) = false →
      (detectRawNewDeleteLine fp i line).filter (fun v => v.message == rawNewMsg) = []) ∧
    (searchDelete (codePart line) = false →
      (detectRawNewDeleteLine fp i line).filter (fun v => v.message == rawDeleteMsg) = []) ∧
    (searchNULL (codePart line) = false →
      (detectNullUsageLine fp i line).filter (fun v => v.message == nullUsageMsg) = []) ∧
    (searchPtrZeroDetect (codePart line) = false →
      (detectNullUsageLine fp i line).filter (fun v => v.message == ptrZeroMsg) = []) ∧
    (searchCast (codePart line) = false → detectCStyleCastLine fp i line = []) ∧
    (searchTypedefKw (codePart line) = false → detectTypedefLine fp i line = []) := by
  refine ⟨?_, ?_, ?_, ?_, ?_, ?_⟩
  · intro h
    unfold detectRawNewDeleteLine
    dsimp only []
    simp only [h]
    split_ifs <;> simp_all [List.filter, (by decide : (rawDeleteMsg == rawNewMsg) = false)]
  · intro h
    unfold detectRawNewDeleteLine
    dsimp only []
    simp only [h]
    split_ifs <;> simp_all [List.filter, (by decide : (rawNewMsg == rawDeleteMsg) = false)]
  · intro h
    unfold detectNullUsageLine
    dsimp only []
    simp only [h]
    split_ifs <;> simp_all [List.filter, (by decide : (ptrZeroMsg == nullUsageMsg) = false)]
  · intro h
    unfold detectNullUsageLine
    dsimp only []
    simp only [h]
    split_ifs <;> simp_all [List.filter, (by decide : (nullUsageMsg == ptrZeroMsg) = false)]
  · intro h
    unfold detectCStyleCastLine
    simp [h]
  · intro h
    unfold detectTypedefLine
    simp [h]

def commentAllPatternsLine : Line := str "x; // new x; delete y; NULL; typedef a b; (Cast)z; *p = 0;\n"

def mixedCommentLine : Line := str "delete p; // NULL int arr[3]\n"

theorem C2_code_segment_rules_amended_witness :
    ((detectRawNewDeleteLine "w.cpp" 1 commentAllPatternsLine).filter
        (fun v => v.message == rawNewMsg) = [] ∧
      (detectRawNewDeleteLine "w.cpp" 1 commentAllPatternsLine).filter
        (fun v => v.message == rawDeleteMsg) = [] ∧
      (detectNullUsageLine "w.cpp" 1 commentAllPatternsLine).filter
        (fun v => v.message == nullUsageMsg) = [] ∧
      (detectNullUsageLine "w.cpp" 1 commentAllPatternsLine).filter
        (fun v => v.message == ptrZeroMsg) = [] ∧
      detectCStyleCastLine "w.cpp" 1 commentAllPatternsLine = [] ∧
      detectTypedefLine "w.cpp" 1 commentAllPatternsLine = []) ∧
    (detectNullUsageLine "m.cpp" 1 mixedCommentLine).filter
      (fun v => v.message == nullUsageMsg) = [] ∧
    (detectFileLines "m.cpp" [mixedCommentLine]).map (fun v => v.rule) =
      ["R.11", "SL.con.1"] :=
  by
  have h1 : searchNew (codePart commentAllPatternsLine) = false := by decide
  have h2 : searchDelete (codePart commentAllPatternsLine) = false := by decide
  have h3 : searchNULL (codePart commentAllPatternsLine) = false := by decide
  have h4 : searchPtrZeroDetect (codePart commentAllPatternsLine) = false := by decide
  have h5 : searchCast (codePart commentAllPatternsLine) = false := by decide
  have h6 : searchTypedefKw (codePart commentAllPatternsLine) = false := by decide
  have h7 : searchNULL (codePart mixedCommentLine) = false := by decide
  exact ⟨⟨(C2_code_segment_rules_amended "w.cpp" 1 commentAllPatternsLine).1 h1,
    (C2_code_segment_rules_amended "w.cpp" 1 commentAllPatternsLine).2.1 h2,
    (C2_code_segment_rules_amended "w.cpp" 1 commentAllPatternsLine).2.2.1 h3,
    (C2_code_segment_rules_amended "w.cpp" 1 commentAllPatternsLine).2.2.2.1 h4,
    (C2_code_segment_rules_amended "w.cpp" 1 commentAllPatternsLine).2.2.2.2.1 h5,
    (C2_code_segment_rules_amended "w.cpp" 1 commentAllPatternsLine).2.2.2.2.2 h6⟩,
    (C2_code_segment_rules_amended "m.cpp" 1 mixedCommentLine).2.2.1 h7,
    by decide⟩

theorem opener_not_label (line : Line) (h : matchOpener line = true) :
    matchLabel (str "public") line = false ∧ matchLabel (str "private") line = false ∧
      matchLabel (str "protected") line = false := by
  cases hr : line.dropWhile pyIsSpace with
  | nil =>
    exfalso
    unfold matchOpener matchOpenerKw at h
    rw [hr] at h
    simp [lit, List.isPrefixOf] at h
  | cons a t =>
    by_cases ha : a = 'c'
    · subst ha
      refine ⟨?_, ?_, ?_⟩ <;> (unfold matchLabel; rw [hr]; rfl)
    · by_cases hs : a = 's'
      · subst hs
        refine ⟨?_, ?_, ?_⟩ <;> (unfold matchLabel; rw [hr]; rfl)
      · exfalso
        unfold matchOpener matchOpenerKw at h
        rw [hr] at h
        rw [show str "class" = 'c' :: str "lass" from rfl,
          show str "struct" = 's' :: str "truct" from rfl] at h
        have hc : ('c' == a) = false := beq_eq_false_iff_ne.mpr (Ne.symm ha)
        have hst : ('s' == a) = false := beq_eq_false_iff_ne.mpr (Ne.symm hs)
        simp [lit, List.isPrefixOf, hc, hst] at h

/-- C6 (amended): a line matching the type-declaration opener puts the
tracker in-class with default access decided by the substring test
`"struct" in line`: `public` when the line contains `struct` anywhere
(always the case for a `struct` keyword, but also for e.g. a `class` whose
name contains `struct`), `private` otherwise. -/
theorem C6_opener_access_amended (st : ScopeState) (line : Line)
    (h : matchOpener line = true) :
    scopeUpdatePre st line =
      ⟨true, if hasSub (str "struct") line then Access.pub else Access.priv⟩ := by
  obtain ⟨hp, hpr, hpt⟩ := opener_not_label line h
  unfold scopeUpdatePre
  simp [h, hp, hpr, hpt]

theorem C6_opener_access_amended_witness :
    scopeUpdatePre ⟨false, Access.priv⟩ (str "struct S \x7b\n") =
      ⟨true, if hasSub (str "struct") (str "struct S \x7b\n") then Access.pub
             else Access.priv⟩ :=
  C6_opener_access_amended ⟨false, Access.priv⟩ (str "struct S \x7b\n") (by decide)

theorem ctorMatch_indent (line : Line) (ind : Line) (h : ctorMatch line = some ind) :
    ind = line.takeWhile pyIsSpace := by
  unfold ctorMatch at h
  dsimp only [] at h
  repeat' split at h
  all_goals simp_all

theorem replaceFirst_of_prefix (pat rep s : Line) (h : pat <+: s) :
    replaceFirst pat rep s = rep ++ s.drop pat.length := by
  cases s with
  | nil =>
    have : pat = [] := List.prefix_nil.mp h
    subst this
    simp [replaceFirst]
  | cons c t =>
    unfold replaceFirst
    rw [if_pos (List.isPrefixOf_iff_prefix.mpr h)]

theorem explicit_line_shape (line : Line) :
    (line.takeWhile pyIsSpace ++ str "explicit ") ++ line.drop (line.takeWhile pyIsSpace).length =
      line.takeWhile pyIsSpace ++ str "explicit " ++ line.drop (line.takeWhile pyIsSpace).length := by
  simp [List.append_assoc]

theorem explicit_inserted_length (line : Line) :
    ((line.takeWhile pyIsSpace ++ str "explicit ") ++
        line.drop (line.takeWhile pyIsSpace).length).length = line.length + 9 := by
  have hle : (line.takeWhile pyIsSpace).length ≤ line.length :=
    (List.takeWhile_prefix pyIsSpace).length_le
  have h9 : (str "explicit ").length = 9 := rfl
  simp [List.length_append, List.length_drop, h9]
  omega

/-- C7: the explicit-insertion pass rewrites a line exactly when, after the
same-line opener/label updates, the tracked state is in a type with access
level `public`, the single-parameter-constructor shape matches, and the line
contains neither `explicit` nor `delete`; in particular it never rewrites
while the access level is private or protected or the state is outside a
type; and the rewrite inserts `explicit ` right after the existing
indentation, leaving the rest of the line intact. -/
theorem C7_explicit_insertion_conditions (st : ScopeState) (line : Line) :
    ((stepExplicit st line).2.1 ≠ line ↔
      ((scopeUpdatePre st line).in_class = true ∧
        (scopeUpdatePre st line).access_level = Access.pub ∧
        (ctorMatch line).isSome = true ∧
        hasSub (str "explicit") line = false ∧ hasSub (str "delete") line = false)) ∧
    (∀ ind, ctorMatch line = some ind →
      (scopeUpdatePre st line).in_class = true →
      (scopeUpdatePre st line).access_level = Access.pub →
      hasSub (str "explicit") line = false → hasSub (str "delete") line = false →
      (stepExplicit st line).2.1 =
        (line.takeWhile pyIsSpace ++ str "explicit ") ++
          line.drop (line.takeWhile pyIsSpace).length) := by
  have hrw : ∀ ind, ctorMatch line = some ind →
      replaceFirst ind (ind ++ str "explicit ") line =
        (line.takeWhile pyIsSpace ++ str "explicit ") ++
          line.drop (line.takeWhile pyIsSpace).length := by
    intro ind hm
    have hi := ctorMatch_indent line ind hm
    subst hi
    exact replaceFirst_of_prefix _ _ _ (List.takeWhile_prefix pyIsSpace)
  have hne : ∀ ind, ctorMatch line = some ind →
      replaceFirst ind (ind ++ str "explicit ") line ≠ line := by
    intro ind hm heq
    rw [hrw ind hm] at heq
    have hlen := congrArg List.length heq
    rw [explicit_inserted_length] at hlen
    omega
  by_cases hin : (scopeUpdatePre st line).in_class = true
  · by_cases hacc : (scopeUpdatePre st line).access_level = Access.pub
    · cases hm : ctorMatch line with
      | some ind =>
        by_cases he : hasSub (str "explicit") line = false
        · by_cases hd : hasSub (str "delete") line = false
          · have hout : (stepExplicit st line).2.1 =
                replaceFirst ind (ind ++ str "explicit ") line := by
              unfold stepExplicit
              dsimp only []
              simp [hin, hacc, hm, he, hd]
            refine ⟨?_, ?_⟩
            · rw [hout]
              exact ⟨fun _ => ⟨hin, hacc, by simp, he, hd⟩, fun _ => hne ind hm⟩
            · intro ind2 hm2 _ _ _ _
              obtain rfl : ind = ind2 := Option.some.inj hm2
              rw [hout, hrw ind hm]
          · have hout : (stepExplicit st line).2.1 = line := by
              unfold stepExplicit
              dsimp only []
              simp [hin, hacc, hm, he, hd]
            refine ⟨?_, ?_⟩
            · rw [hout]
              exact ⟨fun hfh => absurd rfl hfh, fun hr => absurd hr.2.2.2.2 hd⟩
            · intro ind2 _ _ _ _ hd2
              exact absurd hd2 hd
        · have hout : (stepExplicit st line).2.1 = line := by
            unfold stepExplicit
            dsimp only []
            simp [hin, hacc, hm, he]
          refine ⟨?_, ?_⟩
          · rw [hout]
            exact ⟨fun hfh => absurd rfl hfh, fun hr => absurd hr.2.2.2.1 he⟩
          · intro ind2 _ _ _ he2 _
            exact absurd he2 he
      | none =>
        have hout : (stepExplicit st line).2.1 = line := by
          unfold stepExplicit
          dsimp only []
          simp [hin, hacc, hm]
        refine ⟨?_, ?_⟩
        · rw [hout]
          refine ⟨fun hfh => absurd rfl hfh, fun hr => ?_⟩
          have := hr.2.2.1
          simp at this
        · intro ind2 hm2
          exact absurd hm2 (by simp)
    · have hcond : ((scopeUpdatePre st line).in_class &&
          (scopeUpdatePre st line).access_level == Access.pub) = false := by
        simp [hacc]
      have hout : (stepExplicit st line).2.1 = line := by
        unfold stepExplicit
        dsimp only []
        simp [hcond]
      refine ⟨?_, ?_⟩
      · rw [hout]
        exact ⟨fun hfh => absurd rfl hfh, fun hr => absurd hr.2.1 hacc⟩
      · intro ind2 _ _ hacc2
        exact absurd hacc2 hacc
  · have hcond : ((scopeUpdatePre st line).in_class &&
        (scopeUpdatePre st line).access_level == Access.pub) = false := by
      simp [Bool.eq_false_iff.mpr hin]
    have hout : (stepExplicit st line).2.1 = line := by
      unfold stepExplicit
      dsimp only []
      simp [hcond]
    refine ⟨?_, ?_⟩
    · rw [hout]
      exact ⟨fun hfh => absurd rfl hfh, fun hr => absurd hr.1 hin⟩
    · intro ind2 _ hin2
      exact absurd hin2 hin

theorem C7_explicit_insertion_conditions_witness :
    (stepExplicit ⟨true, Access.pub⟩ (str "  Foo(int x);\n")).2.1 =
      ((str "  Foo(int x);\n").takeWhile pyIsSpace ++ str "explicit ") ++
        (str "  Foo(int x);\n").drop ((str "  Foo(int x);\n").takeWhile pyIsSpace).length :=
  (C7_explicit_insertion_conditions ⟨true, Access.pub⟩ (str "  Foo(int x);\n")).2
    (str "  ") (by decide) (by decide) (by decide) (by decide) (by decide)

theorem subNULLF_nil (n : Nat) (pw : Bool) : subNULLF n pw [] = [] := by
  cases n <;> rfl

theorem nullAt_eq_N {c : Char} {t : Line} (h : nullAt (c :: t) = true) : c = 'N' := by
  by_contra hc
  have hpre : ((str "NULL").isPrefixOf (c :: t)) = false := by
    rw [show str "NULL" = 'N' :: str "ULL" from rfl]
    simp [List.isPrefixOf, beq_eq_false_iff_ne.mpr (Ne.symm hc)]
  unfold nullAt lit at h
  rw [hpre] at h
  simp at h

theorem nullAt_n (r : Line) : nullAt ('n' :: r) = false := rfl
theorem nullAt_u (r : Line) : nullAt ('u' :: r) = false := rfl
theorem nullAt_U (r : Line) : nullAt ('U' :: r) = false := rfl
theorem nullAt_L (r : Line) : nullAt ('L' :: r) = false := rfl

theorem subNULLF_cons_noMatch (n : Nat) (pw : Bool) (c : Char) (t : Line)
    (h : nullAt (c :: t) = false) :
    subNULLF (n + 1) pw (c :: t) = c :: subNULLF n (isWordChar c) t := by
  have : (!pw && nullAt (c :: t)) = false := by simp [h]
  simp [subNULLF, this]

def headIsWord : Line → Bool
  | [] => false
  | c :: _ => isWordChar c

theorem subNULLF_headIsWord (n : Nat) (pw : Bool) (s : Line) :
    headIsWord (subNULLF n pw s) = headIsWord s := by
  cases n with
  | zero => rfl
  | succ n1 =>
    cases s with
    | nil => rfl
    | cons c t =>
      by_cases hg : (!pw && nullAt (c :: t)) = true
      · have hN : c = 'N' := nullAt_eq_N (Bool.and_eq_true _ _ ▸ hg).2
        subst hN
        have : subNULLF (n1 + 1) pw ('N' :: t) = str "nullptr" ++ subNULLF n1 true (t.drop 3) := by
          simp [subNULLF, hg]
        rw [this]
        rfl
      · have hg2 : (!pw && nullAt (c :: t)) = false := Bool.eq_false_iff.mpr hg
        simp [subNULLF, hg2, headIsWord]

theorem subNULLF_cons_guardFalse (n : Nat) (pw : Bool) (c : Char) (t : Line)
    (h : (!pw && nullAt (c :: t)) = false) :
    subNULLF (n + 1) pw (c :: t) = c :: subNULLF n (isWordChar c) t := by
  simp [subNULLF, h]

theorem subNULLF_cons_match (n : Nat) (pw : Bool) (c : Char) (t : Line)
    (h : (!pw && nullAt (c :: t)) = true) :
    subNULLF (n + 1) pw (c :: t) = str "nullptr" ++ subNULLF n true (t.drop 3) := by
  simp [subNULLF, h]

theorem subNULLF_head' (n : Nat) (pw : Bool) (c : Char) (t : Line) :
    (∃ X, subNULLF n pw (c :: t) = c :: X) ∨
      (c = 'N' ∧ ∃ X, subNULLF n pw (c :: t) = 'n' :: X) := by
  cases n with
  | zero => exact Or.inl ⟨t, rfl⟩
  | succ n1 =>
    by_cases hg : (!pw && nullAt (c :: t)) = true
    · have hN : c = 'N' := nullAt_eq_N (Bool.and_eq_true _ _ ▸ hg).2
      exact Or.inr ⟨hN, str "ullptr" ++ subNULLF n1 true (t.drop 3),
        subNULLF_cons_match n1 pw c t hg⟩
    · exact Or.inl ⟨subNULLF n1 (isWordChar c) t,
        subNULLF_cons_guardFalse n1 pw c t (Bool.eq_false_iff.mpr hg)⟩

theorem nullAt_N_not_U {a : Char} (ha : ('U' == a) = false) (x : Line) :
    nullAt ('N' :: a :: x) = false := by
  have hpre : ((str "NULL").isPrefixOf ('N' :: a :: x)) = false := by
    rw [show str "NULL" = 'N' :: 'U' :: str "LL" from rfl]
    simp [List.isPrefixOf, ha]
  unfold nullAt lit
  rw [hpre]
  rfl

theorem nullAt_NU_not_L {b : Char} (hb : ('L' == b) = false) (x : Line) :
    nullAt ('N' :: 'U' :: b :: x) = false := by
  have hpre : ((str "NULL").isPrefixOf ('N' :: 'U' :: b :: x)) = false := by
    rw [show str "NULL" = 'N' :: 'U' :: 'L' :: str "L" from rfl]
    simp [List.isPrefixOf, hb]
  unfold nullAt lit
  rw [hpre]
  rfl

theorem nullAt_NUL_not_L {b : Char} (hb : ('L' == b) = false) (x : Line) :
    nullAt ('N' :: 'U' :: 'L' :: b :: x) = false := by
  have hpre : ((str "NULL").isPrefixOf ('N' :: 'U' :: 'L' :: b :: x)) = false := by
    rw [show str "NULL" = 'N' :: 'U' :: 'L' :: 'L' :: ([] : Line) from rfl]
    simp [List.isPrefixOf, hb]
  unfold nullAt lit
  rw [hpre]
  rfl

theorem nullAt_NULL_word {d : Char} (hd : isWordChar d = true) (z : Line) :
    nullAt ('N' :: 'U' :: 'L' :: 'L' :: d :: z) = false := by
  have : nullAt ('N' :: 'U' :: 'L' :: 'L' :: d :: z) = !isWordChar d := rfl
  rw [this, hd]
  rfl

theorem nullAt_not_N {c : Char} (hc : c ≠ 'N') (x : Line) : nullAt (c :: x) = false := by
  cases hb : nullAt (c :: x) with
  | false => rfl
  | true => exact absurd (nullAt_eq_N hb) hc

theorem nullAt_cons_subNULLF (n : Nat) (pw : Bool) (c : Char) (t : Line)
    (hf : nullAt (c :: t) = false) :
    nullAt (c :: subNULLF n pw t) = false := by
  by_cases hN : c = 'N'
  case neg => exact nullAt_not_N hN _
  case pos =>
  subst hN
  cases t with
  | nil => rw [subNULLF_nil]; exact hf
  | cons a t1 =>
    by_cases ha : a = 'U'
    case neg =>
      rcases subNULLF_head' n pw a t1 with ⟨X, hX⟩ | ⟨haN, X, hX⟩
      · rw [hX]; exact nullAt_N_not_U (beq_eq_false_iff_ne.mpr (fun he => ha he.symm)) X
      · rw [hX]; exact nullAt_N_not_U (by decide) X
    case pos =>
    subst ha
    cases n with
    | zero => exact hf
    | succ n1 =>
      rw [subNULLF_cons_guardFalse n1 pw 'U' t1 (by simp [nullAt_U])]
      cases t1 with
      | nil => rw [subNULLF_nil]; exact hf
      | cons b t2 =>
        by_cases hb : b = 'L'
        case neg =>
          rcases subNULLF_head' n1 (isWordChar 'U') b t2 with ⟨X, hX⟩ | ⟨hbN, X, hX⟩
          · rw [hX]; exact nullAt_NU_not_L (beq_eq_false_iff_ne.mpr (fun he => hb he.symm)) X
          · rw [hX]; exact nullAt_NU_not_L (by decide) X
        case pos =>
        subst hb
        cases n1 with
        | zero => exact hf
        | succ n2 =>
          rw [subNULLF_cons_guardFalse n2 (isWordChar 'U') 'L' t2 (by simp [nullAt_L])]
          cases t2 with
          | nil => rw [subNULLF_nil]; exact hf
          | cons c2 t3 =>
            by_cases hc2 : c2 = 'L'
            case neg =>
              rcases subNULLF_head' n2 (isWordChar 'L') c2 t3 with ⟨X, hX⟩ | ⟨hcN, X, hX⟩
              · rw [hX]
                exact nullAt_NUL_not_L (beq_eq_false_iff_ne.mpr (fun he => hc2 he.symm)) X
              · rw [hX]; exact nullAt_NUL_not_L (by decide) X
            case pos =>
            subst hc2
            cases n2 with
            | zero => exact hf
            | succ n3 =>
              rw [subNULLF_cons_guardFalse n3 (isWordChar 'L') 'L' t3 (by simp [nullAt_L])]
              cases t3 with
              | nil => exact absurd hf (by decide)
              | cons d z =>
                have hd : isWordChar d = true := by
                  have heq : nullAt ('N' :: 'U' :: 'L' :: 'L' :: d :: z) = !isWordChar d := rfl
                  rw [heq] at hf
                  simpa using hf
                rcases subNULLF_head' n3 (isWordChar 'L') d z with ⟨X, hX⟩ | ⟨hdN, X, hX⟩
                · rw [hX]; exact nullAt_NULL_word hd X
                · rw [hX]; exact nullAt_NULL_word (by decide) X

theorem searchW_nullptr_prefix (pw : Bool) (X : Line) :
    searchW atNULL pw (str "nullptr" ++ X) = searchW atNULL true X := by
  cases pw <;> rfl

theorem subNULLF_searchW (n : Nat) : ∀ (pw : Bool) (s : Line), s.length ≤ n →
    searchW atNULL pw (subNULLF n pw s) = false := by
  induction n with
  | zero =>
    intro pw s h
    have hnil : s = [] := List.eq_nil_of_length_eq_zero (Nat.le_zero.mp h)
    subst hnil
    cases pw <;> rfl
  | succ n1 ih =>
    intro pw s h
    cases s with
    | nil => cases pw <;> rfl
    | cons c t =>
      have ht : t.length ≤ n1 := by
        rw [List.length_cons] at h
        omega
      by_cases hg : (!pw && nullAt (c :: t)) = true
      · rw [subNULLF_cons_match n1 pw c t hg, searchW_nullptr_prefix]
        exact ih true (t.drop 3) (by rw [List.length_drop]; omega)
      · have hg2 := Bool.eq_false_iff.mpr hg
        rw [subNULLF_cons_guardFalse n1 pw c t hg2]
        show (atNULL pw (c :: subNULLF n1 (isWordChar c) t) ||
          searchW atNULL (isWordChar c) (subNULLF n1 (isWordChar c) t)) = false
        rw [ih (isWordChar c) t ht, Bool.or_false]
        by_cases hpw : pw = true
        · simp [atNULL, hpw]
        · have hpf : pw = false := Bool.eq_false_iff.mpr hpw
          subst hpf
          have hnf : nullAt (c :: t) = false := by simpa using hg2
          simp [atNULL, nullAt_cons_subNULLF n1 (isWordChar c) c t hnf]

theorem subNULLF_ne (n : Nat) : ∀ (pw : Bool) (s : Line), s.length ≤ n →
    searchW atNULL pw s = true → subNULLF n pw s ≠ s := by
  induction n with
  | zero =>
    intro pw s h hs
    exfalso
    have hnil : s = [] := List.eq_nil_of_length_eq_zero (Nat.le_zero.mp h)
    subst hnil
    revert hs
    cases pw <;> decide
  | succ n1 ih =>
    intro pw s h hs
    cases s with
    | nil =>
      exfalso
      revert hs
      cases pw <;> decide
    | cons c t =>
      have ht : t.length ≤ n1 := by
        rw [List.length_cons] at h
        omega
      by_cases hg : (!pw && nullAt (c :: t)) = true
      · rw [subNULLF_cons_match n1 pw c t hg]
        have hN : c = 'N' := nullAt_eq_N (Bool.and_eq_true _ _ ▸ hg).2
        subst hN
        intro heq
        rw [show str "nullptr" ++ subNULLF n1 true (t.drop 3) =
          'n' :: (str "ullptr" ++ subNULLF n1 true (t.drop 3)) from rfl] at heq
        exact absurd (List.cons.inj heq).1 (by decide)
      · have hg2 := Bool.eq_false_iff.mpr hg
        rw [subNULLF_cons_guardFalse n1 pw c t hg2]
        have hs2 : searchW atNULL (isWordChar c) t = true := by
          have ha : atNULL pw (c :: t) = false := hg2
          rw [show searchW atNULL pw (c :: t) =
            (atNULL pw (c :: t) || searchW atNULL (isWordChar c) t) from rfl,
            ha, Bool.false_or] at hs
          exact hs
        intro heq
        exact ih (isWordChar c) t ht hs2 (List.cons.inj heq).2

/-- C3 (amended): whenever the code segment of a line contains the whole
word `NULL`, the NULL rule emits exactly one violation — Important severity,
rule id ES.47 — for that line; and whenever the line additionally contains
neither `//` nor `/*` anywhere (pass 1's stricter guard), pass 1 rewrites
the line by the global whole-word substitution, no whole-word `NULL`
survives in the result, the line really changes, and exactly one Replacement
is logged for it. -/
theorem C3_null_detect_and_rewrite_amended (fp : String) (i : Nat) (line : Line)
    (h : searchNULL (codePart line) = true) :
    (detectNullUsageLine fp i line).filter (fun v => v.message == nullUsageMsg) =
      [{ file := fp, line := i, column := pyFind (str "NULL") line,
         severity := .important, rule := "ES.47", message := nullUsageMsg,
         code_snippet := pyStrip line, suggestion := "替换为 nullptr" }] ∧
    (hasSub (str "//") line = false → hasSub (str "/*") line = false →
      stepNull line = (subNULL false line, some (line, subNULL false line, nullReason)) ∧
      searchNULL (subNULL false line) = false ∧ subNULL false line ≠ line) := by
  constructor
  · have hm : (ptrZeroMsg == nullUsageMsg) = false := by decide
    have hm2 : (nullUsageMsg == nullUsageMsg) = true := by decide
    unfold detectNullUsageLine
    dsimp only []
    by_cases hp : searchPtrZeroDetect (codePart line) = true
    · simp [h, hp, List.filter, hm, hm2]
    · simp [h, Bool.eq_false_iff.mpr hp, List.filter, hm2]
  · intro h1 h2
    have hcp : codePart line = line := by simp [codePart, h1]
    have hsl : searchNULL line = true := by rw [← hcp]; exact h
    have hne : subNULL false line ≠ line := subNULLF_ne line.length false line le_rfl hsl
    refine ⟨?_, ?_, hne⟩
    · unfold stepNull
      dsimp only []
      simp [h1, h2, hsl, if_neg hne]
    · exact subNULLF_searchW line.length false line le_rfl

theorem C3_null_detect_and_rewrite_amended_witness :
    ((detectNullUsageLine "w.cpp" 1 (str "int* p = NULL;\n")).filter
        (fun v => v.message == nullUsageMsg) =
      [{ file := "w.cpp", line := 1, column := pyFind (str "NULL") (str "int* p = NULL;\n"),
         severity := .important, rule := "ES.47", message := nullUsageMsg,
         code_snippet := pyStrip (str "int* p = NULL;\n"), suggestion := "替换为 nullptr" }]) ∧
    (stepNull (str "int* p = NULL;\n") =
        (subNULL false (str "int* p = NULL;\n"),
         some (str "int* p = NULL;\n", subNULL false (str "int* p = NULL;\n"), nullReason)) ∧
      searchNULL (subNULL false (str "int* p = NULL;\n")) = false ∧
      subNULL false (str "int* p = NULL;\n") ≠ str "int* p = NULL;\n") :=
  ⟨(C3_null_detect_and_rewrite_amended "w.cpp" 1 (str "int* p = NULL;\n") (by decide)).1,
   (C3_null_detect_and_rewrite_amended "w.cpp" 1 (str "int* p = NULL;\n") (by decide)).2
     (by decide) (by decide)⟩

theorem subZeroF_nil (n : Nat) : subZeroF n [] = [] := by
  cases n <;> rfl

theorem lit_eq_drop {pat s r : Line} (h : lit pat s = some r) : r = s.drop pat.length := by
  unfold lit at h
  split at h
  · exact (Option.some.inj h).symm
  · exact absurd h (by simp)

theorem zeroTail_suffix {t r : Line} (h : zeroTail t = some r) : r <:+ t := by
  unfold zeroTail at h
  split at h
  · exact absurd h (by simp)
  · rename_i t2 hlit
    split at h
    · rename_i t4 hmatch
      obtain rfl : t4 = r := Option.some.inj h
      have h1 : t4 <:+ t2.dropWhile pyIsSpace := by
        rw [hmatch]
        exact (List.suffix_cons ';' t4)
      have h2 : t2.dropWhile pyIsSpace <:+ t2 := List.dropWhile_suffix pyIsSpace
      have h3 : t2 <:+ t.dropWhile pyIsSpace := by
        rw [lit_eq_drop hlit]
        exact List.drop_suffix _ _
      exact ((h1.trans h2).trans h3).trans (List.dropWhile_suffix pyIsSpace)
    · exact absurd h (by simp)

theorem zeroTail_length {t r : Line} (h : zeroTail t = some r) : r.length ≤ t.length :=
  (zeroTail_suffix h).length_le

theorem subZeroF_cons_eq (n : Nat) (t r : Line) (hz : zeroTail t = some r) :
    subZeroF (n + 1) ('=' :: t) = str "= nullptr;" ++ subZeroF n r := by
  simp [subZeroF, hz]

theorem subZeroF_cons_eq_none (n : Nat) (t : Line) (hz : zeroTail t = none) :
    subZeroF (n + 1) ('=' :: t) = '=' :: subZeroF n t := by
  simp [subZeroF, hz]

theorem subZeroF_cons_ne (n : Nat) (c : Char) (t : Line) (hc : (c == '=') = false) :
    subZeroF (n + 1) (c :: t) = c :: subZeroF n t := by
  simp [subZeroF, hc]

theorem subZeroF_cons_head (n1 : Nat) (c : Char) (t : Line) :
    ∃ X, subZeroF (n1 + 1) (c :: t) = c :: X := by
  by_cases hc : (c == '=') = true
  · obtain rfl : c = '=' := beq_iff_eq.mp hc
    cases hz : zeroTail t with
    | some r =>
      exact ⟨str " nullptr;" ++ subZeroF n1 r, by rw [subZeroF_cons_eq n1 t r hz]; rfl⟩
    | none => exact ⟨subZeroF n1 t, subZeroF_cons_eq_none n1 t hz⟩
  · exact ⟨subZeroF n1 t, subZeroF_cons_ne n1 c t (Bool.eq_false_iff.mpr hc)⟩

theorem subZeroF_congr (m : Nat) : ∀ (n : Nat) (s : Line), s.length ≤ m → s.length ≤ n →
    subZeroF m s = subZeroF n s := by
  induction m with
  | zero =>
    intro n s hm hn
    have : s = [] := List.eq_nil_of_length_eq_zero (Nat.le_zero.mp hm)
    subst this
    rw [subZeroF_nil, subZeroF_nil]
  | succ m1 ih =>
    intro n s hm hn
    cases s with
    | nil => rw [subZeroF_nil, subZeroF_nil]
    | cons c t =>
      cases n with
      | zero => exact absurd hn (by simp)
      | succ n1 =>
        have htm : t.length ≤ m1 := by rw [List.length_cons] at hm; omega
        have htn : t.length ≤ n1 := by rw [List.length_cons] at hn; omega
        by_cases hc : (c == '=') = true
        · obtain rfl : c = '=' := beq_iff_eq.mp hc
          cases hz : zeroTail t with
          | some r =>
            rw [subZeroF_cons_eq m1 t r hz, subZeroF_cons_eq n1 t r hz,
              ih n1 r (le_trans (zeroTail_length hz) htm) (le_trans (zeroTail_length hz) htn)]
          | none =>
            rw [subZeroF_cons_eq_none m1 t hz, subZeroF_cons_eq_none n1 t hz, ih n1 t htm htn]
        · have hc2 := Bool.eq_false_iff.mpr hc
          rw [subZeroF_cons_ne m1 c t hc2, subZeroF_cons_ne n1 c t hc2, ih n1 t htm htn]

theorem isPrefixOf_nil_left (v : Line) : List.isPrefixOf ([] : Line) v = true := by
  cases v <;> rfl

theorem lit_zero_cons (v : Line) : lit (str "0") ('0' :: v) = some v := by
  unfold lit
  rw [show (str "0").isPrefixOf ('0' :: v) = List.isPrefixOf ([] : Line) v from rfl,
    isPrefixOf_nil_left]
  rfl

theorem lit_zero_ne {d : Char} (hd : ('0' == d) = false) (v : Line) :
    lit (str "0") (d :: v) = none := by
  unfold lit
  rw [show (str "0").isPrefixOf (d :: v) = (('0' == d) && List.isPrefixOf ([] : Line) v)
    from rfl, hd]
  rfl

theorem zeroTail_none_of_nil {t : Line} (h : t.dropWhile pyIsSpace = []) :
    zeroTail t = none := by
  unfold zeroTail
  rw [h]
  rfl

theorem zeroTail_none_of_ne0 {t : Line} {d : Char} {v : Line}
    (h : t.dropWhile pyIsSpace = d :: v) (hd : ('0' == d) = false) : zeroTail t = none := by
  unfold zeroTail
  rw [h, lit_zero_ne hd]

theorem zeroTail_of_0 {t v : Line} (h : t.dropWhile pyIsSpace = '0' :: v) :
    zeroTail t =
      (match v.dropWhile pyIsSpace with
       | ';' :: t4 => some t4
       | _ => none) := by
  unfold zeroTail
  rw [h, lit_zero_cons]

theorem zeroTail_of_0_nil {t v : Line} (h : t.dropWhile pyIsSpace = '0' :: v)
    (h2 : v.dropWhile pyIsSpace = []) : zeroTail t = none := by
  rw [zeroTail_of_0 h, h2]

theorem zeroTail_of_0_cons {t v : Line} {e : Char} {w : Line}
    (h : t.dropWhile pyIsSpace = '0' :: v) (h2 : v.dropWhile pyIsSpace = e :: w)
    (he : e ≠ ';') : zeroTail t = none := by
  rw [zeroTail_of_0 h, h2]
  split
  · rename_i t4 heq
    exact absurd (List.cons.inj heq).1 he
  · rfl

theorem zeroTail_of_0_semi {t v w : Line} (h : t.dropWhile pyIsSpace = '0' :: v)
    (h2 : v.dropWhile pyIsSpace = ';' :: w) : zeroTail t = some w := by
  rw [zeroTail_of_0 h, h2]
  rfl

theorem dropWhile_subZeroF : ∀ (t : Line) (n : Nat), t.length ≤ n →
    (subZeroF n t).dropWhile pyIsSpace = subZeroF n (t.dropWhile pyIsSpace) := by
  intro t
  induction t with
  | nil => intro n h; simp [subZeroF_nil]
  | cons c t' ih =>
    intro n h
    cases n with
    | zero => exact absurd h (by simp)
    | succ n1 =>
      have ht : t'.length ≤ n1 := by rw [List.length_cons] at h; omega
      by_cases hsp : pyIsSpace c = true
      · have hc : (c == '=') = false := by
          cases hb : c == '=' with
          | false => rfl
          | true =>
            obtain rfl : c = '=' := beq_iff_eq.mp hb
            exact absurd hsp (by decide)
        rw [subZeroF_cons_ne n1 c t' hc,
          show (c :: subZeroF n1 t').dropWhile pyIsSpace =
            (subZeroF n1 t').dropWhile pyIsSpace from by simp [List.dropWhile, hsp],
          show (c :: t').dropWhile pyIsSpace = t'.dropWhile pyIsSpace from by
            simp [List.dropWhile, hsp],
          ih n1 ht]
        exact subZeroF_congr n1 (n1 + 1) _
          (le_trans (List.dropWhile_sublist _).length_le ht)
          (le_trans (le_trans (List.dropWhile_sublist _).length_le ht) (Nat.le_succ n1))
      · have hspf : pyIsSpace c = false := Bool.eq_false_iff.mpr hsp
        rw [show (c :: t').dropWhile pyIsSpace = c :: t' from by simp [List.dropWhile, hspf]]
        obtain ⟨X, hX⟩ := subZeroF_cons_head n1 c t'
        rw [hX]
        simp [List.dropWhile, hspf]

theorem zeroTail_subZeroF : ∀ (t : Line) (n : Nat), t.length ≤ n → zeroTail t = none →
    zeroTail (subZeroF n t) = none := by
  intro t n h hz
  have hdw : (subZeroF n t).dropWhile pyIsSpace = subZeroF n (t.dropWhile pyIsSpace) :=
    dropWhile_subZeroF t n h
  have hu : (t.dropWhile pyIsSpace).length ≤ n :=
    le_trans (List.dropWhile_sublist _).length_le h
  cases hcase : t.dropWhile pyIsSpace with
  | nil =>
    refine zeroTail_none_of_nil ?_
    rw [hdw, hcase, subZeroF_nil]
  | cons d v =>
    rw [hcase] at hu
    cases n with
    | zero => exact absurd hu (by simp)
    | succ n1 =>
      have hv : v.length ≤ n1 := by rw [List.length_cons] at hu; omega
      by_cases hd : d = '0'
      · subst hd
        have hsz : subZeroF (n1 + 1) ('0' :: v) = '0' :: subZeroF n1 v :=
          subZeroF_cons_ne n1 '0' v (by decide)
        have hdw2 : (subZeroF (n1 + 1) t).dropWhile pyIsSpace = '0' :: subZeroF n1 v := by
          rw [hdw, hcase, hsz]
        have hw : (subZeroF n1 v).dropWhile pyIsSpace = subZeroF n1 (v.dropWhile pyIsSpace) :=
          dropWhile_subZeroF v n1 hv
        have hwlen : (v.dropWhile pyIsSpace).length ≤ n1 :=
          le_trans (List.dropWhile_sublist _).length_le hv
        cases hwcase : v.dropWhile pyIsSpace with
        | nil =>
          refine zeroTail_of_0_nil hdw2 ?_
          rw [hw, hwcase, subZeroF_nil]
        | cons e w' =>
          rw [hwcase] at hwlen
          cases n1 with
          | zero => exact absurd hwlen (by simp)
          | succ n2 =>
            obtain ⟨Y, hY⟩ := subZeroF_cons_head n2 e w'
            have he : e ≠ ';' := by
              intro heeq
              subst heeq
              rw [zeroTail_of_0_semi hcase hwcase] at hz
              exact absurd hz (by simp)
            have hfin : (subZeroF (n2 + 1) v).dropWhile pyIsSpace = e :: Y := by
              rw [hw, hwcase, hY]
            exact zeroTail_of_0_cons hdw2 hfin he
      · have hd0 : ('0' == d) = false := beq_eq_false_iff_ne.mpr (Ne.symm hd)
        obtain ⟨X, hX⟩ := subZeroF_cons_head n1 d v
        have hfin : (subZeroF (n1 + 1) t).dropWhile pyIsSpace = d :: X := by
          rw [hdw, hcase, hX]
        exact zeroTail_none_of_ne0 hfin hd0

/-- An occurrence of the rewrite pattern `=\s*0\s*;` at some position. -/
def searchEqZero : Line → Bool
  | [] => false
  | c :: t => (c == '=' && (zeroTail t).isSome) || searchEqZero t

theorem searchEqZero_nullptr_prefix (X : Line) :
    searchEqZero (str "= nullptr;" ++ X) = searchEqZero X := rfl

theorem searchEqZero_subZeroF (n : Nat) : ∀ (s : Line), s.length ≤ n →
    searchEqZero (subZeroF n s) = false := by
  induction n with
  | zero =>
    intro s h
    have : s = [] := List.eq_nil_of_length_eq_zero (Nat.le_zero.mp h)
    subst this
    rfl
  | succ n1 ih =>
    intro s h
    cases s with
    | nil => rfl
    | cons c t =>
      have ht : t.length ≤ n1 := by rw [List.length_cons] at h; omega
      by_cases hc : (c == '=') = true
      · obtain rfl : c = '=' := beq_iff_eq.mp hc
        cases hz : zeroTail t with
        | some r =>
          rw [subZeroF_cons_eq n1 t r hz, searchEqZero_nullptr_prefix]
          exact ih r (le_trans (zeroTail_length hz) ht)
        | none =>
          rw [subZeroF_cons_eq_none n1 t hz]
          show (('=' == '=' && (zeroTail (subZeroF n1 t)).isSome) ||
            searchEqZero (subZeroF n1 t)) = false
          rw [zeroTail_subZeroF t n1 ht hz, ih t ht]
          rfl
      · have hc2 := Bool.eq_false_iff.mpr hc
        rw [subZeroF_cons_ne n1 c t hc2]
        show ((c == '=' && (zeroTail (subZeroF n1 t)).isSome) ||
          searchEqZero (subZeroF n1 t)) = false
        rw [hc2, ih t ht]
        rfl

theorem subZeroF_ne (n : Nat) : ∀ (s : Line), s.length ≤ n → searchEqZero s = true →
    subZeroF n s ≠ s := by
  induction n with
  | zero =>
    intro s h hs
    have : s = [] := List.eq_nil_of_length_eq_zero (Nat.le_zero.mp h)
    subst this
    exact absurd hs (by decide)
  | succ n1 ih =>
    intro s h hs
    cases s with
    | nil => exact absurd hs (by decide)
    | cons c t =>
      have ht : t.length ≤ n1 := by rw [List.length_cons] at h; omega
      by_cases hc : (c == '=') = true
      · obtain rfl : c = '=' := beq_iff_eq.mp hc
        cases hz : zeroTail t with
        | some r =>
          rw [subZeroF_cons_eq n1 t r hz]
          intro heq
          rw [show str "= nullptr;" ++ subZeroF n1 r =
            '=' :: (str " nullptr;" ++ subZeroF n1 r) from rfl] at heq
          have htail := (List.cons.inj heq).2
          rw [← htail] at hz
          rw [show zeroTail (str " nullptr;" ++ subZeroF n1 r) = none from rfl] at hz
          exact absurd hz (by simp)
        | none =>
          rw [subZeroF_cons_eq_none n1 t hz]
          have hs2 : searchEqZero t = true := by
            rw [show searchEqZero ('=' :: t) =
              (('=' == '=' && (zeroTail t).isSome) || searchEqZero t) from rfl, hz] at hs
            simpa using hs
          intro heq
          exact ih t ht hs2 (List.cons.inj heq).2
      · have hc2 := Bool.eq_false_iff.mpr hc
        rw [subZeroF_cons_ne n1 c t hc2]
        have hs2 : searchEqZero t = true := by
          rw [show searchEqZero (c :: t) =
            ((c == '=' && (zeroTail t).isSome) || searchEqZero t) from rfl, hc2] at hs
          simpa using hs
        intro heq
        exact ih t ht hs2 (List.cons.inj heq).2

theorem word1_snd {s : Line} {p : Line × Line} (h : word1 s = some p) :
    p.2 = s.dropWhile isWordChar := by
  unfold word1 at h
  dsimp only [] at h
  split at h
  · exact absurd h (by simp)
  · obtain rfl := Option.some.inj h
    rfl

theorem atPtrZero_exists {s : Line} (h : atPtrZero s = true) :
    ∃ t4, ('=' :: t4) <:+ s ∧ (zeroTail t4).isSome = true := by
  unfold atPtrZero at h
  split at h
  · rename_i t
    split at h
    · rename_i w p hw
      split at h
      · rename_i t4 heq
        refine ⟨t4, ?_, h⟩
        have hp : p = (t.dropWhile pyIsSpace).dropWhile isWordChar := word1_snd hw
        have h1 : ('=' :: t4) <:+ p := by
          rw [← heq]
          exact List.dropWhile_suffix pyIsSpace
        have h2 : p <:+ t.dropWhile pyIsSpace := by
          rw [hp]
          exact List.dropWhile_suffix isWordChar
        have h3 : t.dropWhile pyIsSpace <:+ t := List.dropWhile_suffix pyIsSpace
        exact ((h1.trans h2).trans h3).trans (List.suffix_cons '*' t)
      · exact absurd h (by simp)
    · exact absurd h (by simp)
  · exact absurd h (by simp)

theorem searchEq_of_suffix : ∀ (s t4 : Line), ('=' :: t4) <:+ s →
    (zeroTail t4).isSome = true → searchEqZero s = true := by
  intro s
  induction s with
  | nil =>
    intro t4 hsuf _
    exact absurd (List.suffix_nil.mp hsuf) (by simp)
  | cons c t ih =>
    intro t4 hsuf hz
    rcases List.suffix_cons_iff.mp hsuf with he | ht
    · obtain ⟨hc, ht4⟩ := List.cons.inj he
      subst hc
      subst ht4
      show (('=' == '=' && (zeroTail t4).isSome) || searchEqZero t4) = true
      rw [hz]
      rfl
    · show ((c == '=' && (zeroTail t).isSome) || searchEqZero t) = true
      rw [ih t4 ht hz]
      simp

theorem searchPtrZero_exists : ∀ (s : Line), searchPtrZero s = true →
    ∃ t4, ('=' :: t4) <:+ s ∧ (zeroTail t4).isSome = true := by
  intro s
  induction s with
  | nil => intro h; exact absurd h (by decide)
  | cons c t ih =>
    intro h
    rcases Bool.or_eq_true _ _ ▸ h with h1 | h1
    · exact atPtrZero_exists h1
    · obtain ⟨t4, hsuf, hz⟩ := ih h1
      exact ⟨t4, hsuf.trans (List.suffix_cons c t), hz⟩

/-- C10: whenever the pointer-dereference trigger `\*\s*\w+\s*=\s*0\s*;`
matches a line, the zero pass rewrites the line by the global substitution
of `=\s*0\s*;` with `= nullptr;` — afterwards no occurrence of the
substitution pattern remains anywhere on the line (every occurrence was
rewritten, not only the triggering one) — the line really changes, and
exactly one Replacement is logged for the line. -/
theorem C10_zero_rewrites_all_occurrences (line : Line)
    (h : searchPtrZero line = true) :
    stepZero line = (subZero line, some (line, subZero line, zeroReason)) ∧
    searchEqZero (subZero line) = false ∧ subZero line ≠ line := by
  obtain ⟨t4, hsuf, hz⟩ := searchPtrZero_exists line h
  have hseq : searchEqZero line = true := searchEq_of_suffix line t4 hsuf hz
  have hne : subZero line ≠ line := subZeroF_ne line.length line le_rfl hseq
  refine ⟨?_, searchEqZero_subZeroF line.length line le_rfl, hne⟩
  unfold stepZero
  dsimp only []
  simp [h, if_neg hne]

theorem C10_zero_rewrites_all_occurrences_witness :
    subZero (str "*p = 0; n = 0;\n") = str "*p = nullptr; n = nullptr;\n" ∧
    (stepZero (str "*p = 0; n = 0;\n") =
        (subZero (str "*p = 0; n = 0;\n"),
         some (str "*p = 0; n = 0;\n", subZero (str "*p = 0; n = 0;\n"), zeroReason)) ∧
      searchEqZero (subZero (str "*p = 0; n = 0;\n")) = false ∧
      subZero (str "*p = 0; n = 0;\n") ≠ str "*p = 0; n = 0;\n") :=
  ⟨by decide, C10_zero_rewrites_all_occurrences (str "*p = 0; n = 0;\n") (by decide)⟩
